import Mathlib

/-!
Shallow embedding of `nkms/keystore/keystore.py` (the KeyStore persistence
layer of the nucypher proxy re-encryption system), together with proofs of the
spec's claims about it.

Modelling conventions:
* Python `bytes` values are `List Nat` (each entry a byte value).
* A SQLAlchemy session / table is a `Store` record holding the three entity
  tables as lists in insertion order; `query(...).filter_by(...)` is
  `List.filter`, `.first()` is `List.head?` on the filtered list, and
  `session.add` appends.  Row ids are handed out from a counter, mirroring the
  database's autoincrementing primary key.
* Exceptions become an explicit error type `KSError`.  Operations that
  mutate return the updated `Store`; `attach_kfrag_to_saved_contract` returns
  `Option KSError × Store` so that "raises and leaves the row unchanged" is
  directly expressible.
* Code of this repository that is imported by `keystore.py` but whose file is
  not part of the sources at hand (`nkms/crypto/utils.py`,
  `nkms/keystore/db/models.py`, `nkms/crypto/constants.py`, the
  `BytestringSplitter`) is modelled from the spec; every such definition says
  so in its doc comment.
-/

namespace NkmsKeystore

/-- Python `bytes`: a list of byte values. -/
abbrev Bytes := List Nat

/-- UTF-8 encoding of a single Unicode code point, the byte sequence Python's
`str.encode()` produces for that character. -/
def utf8EncodeCodePoint (c : Nat) : List Nat :=
  if c < 0x80 then [c]
  else if c < 0x800 then [0xC0 + c / 64, 0x80 + c % 64]
  else if c < 0x10000 then [0xE0 + c / 4096, 0x80 + (c / 64) % 64, 0x80 + c % 64]
  else [0xF0 + c / 262144, 0x80 + (c / 4096) % 64, 0x80 + (c / 64) % 64, 0x80 + c % 64]

/-- Python's `str.encode()`: UTF-8 encode every character of the string.
Used by `attach_kfrag_to_saved_contract`, the one operation that receives its
hrac as a text string (`hrac_as_hex.encode()`). -/
def strEncode (s : String) : Bytes := s.data.flatMap (fun ch => utf8EncodeCodePoint ch.toNat)

/-- Modelled from the spec: `fingerprint_from_key` lives in
`nkms/crypto/utils.py`, which is not among the sources.  The spec describes it
as a pure deterministic content-addressing digest of the serialized key bytes,
collision-free over the practical key-space (§4.2, §8); we model it as a
deterministic byte-wise digest (hex-nibble expansion), which is provably
injective, matching the spec's "injective within the practical key-space". -/
def fingerprint_from_key (k : Bytes) : Bytes := k.flatMap (fun b => [b / 16, b % 16])

/-- Modelled from the spec: an umbral public key is an opaque primitive with a
documented byte-level encoding (§1); `UmbralPublicKey.from_bytes` deserializes
stored bytes into a public-key value object reconstructable to the same bytes
(§8), so the model is a value object wrapping its serialized bytes. -/
structure UmbralPublicKey where
  key_bytes : Bytes
deriving DecidableEq, Repr

/-- Modelled from the spec: `UmbralPublicKey.from_bytes(key_data, as_b64=False)`. -/
def UmbralPublicKey.from_bytes (b : Bytes) : UmbralPublicKey := ⟨b⟩

/-- Python `bytes(key)`: the serialized bytes of an umbral public key. -/
def UmbralPublicKey.toBytes (k : UmbralPublicKey) : Bytes := k.key_bytes

/-- Modelled from the spec: the `Key` row of `nkms/keystore/db/models.py`
(file not among the sources): content-derived `fingerprint`, raw `key_data`
bytes, `is_signing` flag (§3), plus the relational primary key `id` that
`add_workorder` reads (`bob_pubkey_sig.id`). -/
structure Key where
  id : Nat
  fingerprint : Bytes
  key_data : Bytes
  is_signing : Bool
deriving DecidableEq, Repr

/-- Modelled from the spec: the `PolicyContract` row of
`nkms/keystore/db/models.py` (file not among the sources): `hrac`,
`expiration`, `deposit`, optional `kfrag` (the attribute the attach operation
assigns as `k_frag`), the owning delegator `Key` reference `alice_pubkey_sig`,
and optional `alice_signature` (§3). -/
structure PolicyContract where
  expiration : Nat
  deposit : Nat
  hrac : Bytes
  k_frag : Option Bytes
  alice_pubkey_sig : Key
  alice_signature : Option Bytes
deriving DecidableEq, Repr

/-- Modelled from the spec: the `Workorder` row of
`nkms/keystore/db/models.py` (file not among the sources): reference to the
requester's signing Key (`keypair_id` from `bob_pubkey_sig.id`),
`bob_signature`, and the targeted `hrac` (§3). -/
structure Workorder where
  keypair_id : Nat
  bob_signature : Bytes
  hrac : Bytes
deriving DecidableEq, Repr

/-- Failures the keystore layer can surface.  `notFound` is the keystore's own
`NotFound` exception class; `suspiciousActivity` is the principal's
`SuspiciousActivity` raised by the integrity gate; `attributeError` is
Python's built-in `AttributeError` (attribute access on `None`);
`malformedEncoding` is the fragment codec's deserialization failure.  The
human-readable messages the Python exceptions carry are not modelled. -/
inductive KSError where
  | notFound
  | suspiciousActivity
  | attributeError
  | malformedEncoding
deriving DecidableEq, Repr

/-- The persisted state behind one SQLAlchemy session: the three entity
tables in insertion order plus the autoincrement counter for `Key.id`. -/
structure Store where
  keys : List Key
  contracts : List PolicyContract
  workorders : List Workorder
  next_id : Nat
deriving DecidableEq, Repr

/-- A fresh, empty store. -/
def emptyStore : Store := ⟨[], [], [], 0⟩

/-- The caller principal (e.g. `alice`): per §6 it exposes an identity
`stamp`, the principal's signing public key bytes, compared against the
contract's stored delegator key bytes by the integrity gate. -/
structure Character where
  stamp : Bytes
deriving DecidableEq, Repr

/-- Truthiness of a SQLAlchemy `Query` object, the value
`session.query(...).filter_by(...)` returns before any `.first()`/`.all()`:
the class defines neither `__bool__` nor `__len__`, so Python's default object
truthiness applies and the object is always truthy, even when the query would
match zero rows.  `get_workorders` tests `if not workorders` on such an
object. -/
def queryIsTruthy (_workorders : List Workorder) : Bool := true

/-- Replace the first list element satisfying `p` by its image under `f`
(SQLAlchemy identity-map semantics of mutating the row `.first()` returned). -/
def updateFirst (p : α → Bool) (f : α → α) : List α → List α
  | [] => []
  | x :: xs => if p x then f x :: xs else x :: updateFirst p f xs

/-- Modelled from the spec: `KFRAG_LENGTH` comes from
`nkms/crypto/constants.py`, not among the sources; the spec only fixes that
the fragment occupies a fixed known length (§4.3). -/
def KFRAG_LENGTH : Nat := 66

/-- Modelled from the spec: the fixed serialized length of a `Signature`
(`nkms/crypto/signature.py`, not among the sources); the spec only fixes that
the signature occupies a fixed known length (§4.3). -/
def SIGNATURE_LENGTH : Nat := 64

/-- Modelled from the spec: the split direction of
`kfrag_splitter = BytestringSplitter(Signature, (KFrag, KFRAG_LENGTH))`
(`BytestringSplitter` is in `nkms/crypto/utils.py`, not among the sources).
Per §4.3 it decomposes a blob into a fixed-length signature followed by a
fixed-length key fragment, validating the total length and failing
deserialization on input of the wrong total length. -/
def kfrag_splitter (b : Bytes) : Except KSError (Bytes × Bytes) :=
  if b.length = SIGNATURE_LENGTH + KFRAG_LENGTH then
    Except.ok (b.take SIGNATURE_LENGTH, b.drop SIGNATURE_LENGTH)
  else
    Except.error KSError.malformedEncoding

/-- Modelled from the spec: `compose(Signature, KeyFragment) -> bytes`, the
exact inverse of the splitter (§4.3): concatenation of the two encodings. -/
def kfrag_compose (sig : Bytes) (frag : Bytes) : Bytes := sig ++ frag

/-- `KeyStore.add_key(key, is_signing=True, session=None)` acting on the
effective session: computes the fingerprint of the key's serialized bytes,
builds `Key(fingerprint, key_data, is_signing)`, adds and commits it, and
returns the new row. -/
def add_key (s : Store) (key : UmbralPublicKey) (is_signing : Bool) : Key × Store :=
  let fingerprint := fingerprint_from_key key.toBytes
  let key_data := key.toBytes
  let new_key : Key := ⟨s.next_id, fingerprint, key_data, is_signing⟩
  (new_key, { s with keys := s.keys ++ [new_key], next_id := s.next_id + 1 })

/-- `KeyStore.get_key(fingerprint, session=None)` acting on the effective
session: `.filter_by(fingerprint=fingerprint).first()`; raises `NotFound` when
that is `None`, otherwise deserializes `key_data` via
`UmbralPublicKey.from_bytes`. -/
def get_key (s : Store) (fingerprint : Bytes) : Except KSError UmbralPublicKey :=
  match (s.keys.filter (fun k => k.fingerprint == fingerprint)).head? with
  | none => Except.error KSError.notFound
  | some key => Except.ok (UmbralPublicKey.from_bytes key.key_data)

/-- `KeyStore.del_key(fingerprint, session=None)` acting on the effective
session: bulk-deletes every Key row with that fingerprint and commits. -/
def del_key (s : Store) (fingerprint : Bytes) : Store :=
  { s with keys := s.keys.filter (fun k => k.fingerprint != fingerprint) }

/-- `KeyStore.add_policy_contract(expiration, deposit, hrac, kfrag=None,
alice_pubkey_sig=None, alice_signature=None, session=None)` acting on the
effective session: resolves the delegator Key row by content match
(`filter_by(key_data=bytes(alice_pubkey_sig)).first()`), creating one via
`Key.from_umbral_key(alice_pubkey_sig, is_signing=True)` when absent (the new
row reaches the table through the relationship cascade on commit, modelled
from §3's Key lifecycle: "created ... implicitly when another entity
references a key not yet present"); then persists
`PolicyContract(expiration, deposit, hrac, kfrag,
alice_pubkey_sig=alice_key_instance, alice_signature=None)` — note the
constructor is handed the literal `None` for `alice_signature`, not the
caller's argument — commits and returns it. -/
def add_policy_contract (s : Store) (expiration : Nat) (deposit : Nat) (hrac : Bytes)
    (kfrag : Option Bytes) (alice_pubkey_sig : UmbralPublicKey)
    (alice_signature : Option Bytes) : PolicyContract × Store :=
  match (s.keys.filter (fun k => k.key_data == alice_pubkey_sig.toBytes)).head? with
  | some alice_key_instance =>
      let new_policy_contract : PolicyContract :=
        ⟨expiration, deposit, hrac, kfrag, alice_key_instance, none⟩
      (new_policy_contract, { s with contracts := s.contracts ++ [new_policy_contract] })
  | none =>
      let alice_key_instance : Key :=
        ⟨s.next_id, fingerprint_from_key alice_pubkey_sig.toBytes, alice_pubkey_sig.toBytes, true⟩
      let new_policy_contract : PolicyContract :=
        ⟨expiration, deposit, hrac, kfrag, alice_key_instance, none⟩
      (new_policy_contract,
        { s with keys := s.keys ++ [alice_key_instance],
                 contracts := s.contracts ++ [new_policy_contract],
                 next_id := s.next_id + 1 })

/-- `KeyStore.get_policy_contract(hrac, session=None)` acting on the effective
session: `.filter_by(hrac=hrac).first()`; raises `NotFound` when that is
`None`. -/
def get_policy_contract (s : Store) (hrac : Bytes) : Except KSError PolicyContract :=
  match (s.contracts.filter (fun c => c.hrac == hrac)).head? with
  | none => Except.error KSError.notFound
  | some policy_contract => Except.ok policy_contract

/-- `KeyStore.del_policy_contract(hrac, session=None)` acting on the effective
session: bulk-deletes every PolicyContract row with that hrac and commits. -/
def del_policy_contract (s : Store) (hrac : Bytes) : Store :=
  { s with contracts := s.contracts.filter (fun c => c.hrac != hrac) }

/-- `KeyStore.attach_kfrag_to_saved_contract(alice, hrac_as_hex, kfrag,
session=None)` acting on the effective session: loads
`.filter_by(hrac=hrac_as_hex.encode()).first()` — when that is `None` the
very next line dereferences `policy_contract.alice_pubkey_sig` on `None` and
Python raises `AttributeError` (there is no `NotFound` check here); with a
loaded contract, compares the stored delegator key bytes against
`alice.stamp` and raises `alice.SuspiciousActivity` on mismatch before any
mutation; on match assigns `policy_contract.k_frag = bytes(kfrag)` on the row
`.first()` returned and commits. -/
def attach_kfrag_to_saved_contract (s : Store) (alice : Character) (hrac_as_hex : String)
    (kfrag : Bytes) : Option KSError × Store :=
  match (s.contracts.filter (fun c => c.hrac == strEncode hrac_as_hex)).head? with
  | none => (some KSError.attributeError, s)
  | some policy_contract =>
      if policy_contract.alice_pubkey_sig.key_data != alice.stamp then
        (some KSError.suspiciousActivity, s)
      else
        let contracts2 :=
          updateFirst (fun c => c.hrac == strEncode hrac_as_hex)
            (fun c => { c with k_frag := some kfrag }) s.contracts
        (none, { s with contracts := contracts2 })

/-- `KeyStore.add_workorder(bob_pubkey_sig, bob_signature, hrac,
session=None)` acting on the effective session: unconditionally stores the
requester's key via `self.add_key(bob_pubkey_sig)` (default
`is_signing=True`), then persists `Workorder(bob_pubkey_sig.id,
bob_signature, hrac)`, commits and returns it. -/
def add_workorder (s : Store) (bob_pubkey_sig : UmbralPublicKey) (bob_signature : Bytes)
    (hrac : Bytes) : Workorder × Store :=
  let r := add_key s bob_pubkey_sig true
  let new_workorder : Workorder := ⟨r.1.id, bob_signature, hrac⟩
  (new_workorder, { r.2 with workorders := r.2.workorders ++ [new_workorder] })

/-- `KeyStore.get_workorders(hrac, session=None)` acting on the effective
session: builds the query `.filter_by(hrac=hrac)` and tests
`if not workorders` on the Query object itself — which is always truthy (see
`queryIsTruthy`), so the `NotFound` branch is unreachable and the (possibly
empty) result set is returned. -/
def get_workorders (s : Store) (hrac : Bytes) : Except KSError (List Workorder) :=
  let workorders := s.workorders.filter (fun w => w.hrac == hrac)
  if !queryIsTruthy workorders then
    Except.error KSError.notFound
  else
    Except.ok workorders

/-- `KeyStore.del_workorders(hrac, session=None)` acting on the effective
session: bulk-deletes every Workorder row with that hrac, commits, and
returns the number of rows removed. -/
def del_workorders (s : Store) (hrac : Bytes) : Nat × Store :=
  let workorders := s.workorders.filter (fun w => w.hrac == hrac)
  let deleted := workorders.length
  (deleted, { s with workorders := s.workorders.filter (fun w => w.hrac != hrac) })

/-- The `KeyStore` facade object: its construction binds one default session
(`self._session_on_init_thread = Session()`). -/
structure KeyStore where
  _session_on_init_thread : Store
deriving DecidableEq, Repr

/-- Facade method `KeyStore.add_key`: `session = session or
self._session_on_init_thread`, then the body runs on the chosen session.
The triple returned is (result, keystore after the call, updated explicit
session when one was passed). -/
def KeyStore.add_key (ks : KeyStore) (key : UmbralPublicKey) (is_signing : Bool)
    (session : Option Store) : Key × KeyStore × Option Store :=
  let s := session.getD ks._session_on_init_thread
  let r := NkmsKeystore.add_key s key is_signing
  match session with
  | some _ => (r.1, ks, some r.2)
  | none => (r.1, ⟨r.2⟩, none)

/-- Facade method `KeyStore.get_key` (read-only): `session = session or
self._session_on_init_thread`, then the body queries the chosen session. -/
def KeyStore.get_key (ks : KeyStore) (fingerprint : Bytes) (session : Option Store) :
    Except KSError UmbralPublicKey :=
  let s := session.getD ks._session_on_init_thread
  NkmsKeystore.get_key s fingerprint

/-- Facade method `KeyStore.del_key`. -/
def KeyStore.del_key (ks : KeyStore) (fingerprint : Bytes) (session : Option Store) :
    KeyStore × Option Store :=
  let s := session.getD ks._session_on_init_thread
  let s2 := NkmsKeystore.del_key s fingerprint
  match session with
  | some _ => (ks, some s2)
  | none => (⟨s2⟩, none)

/-- Facade method `KeyStore.add_policy_contract`. -/
def KeyStore.add_policy_contract (ks : KeyStore) (expiration : Nat) (deposit : Nat)
    (hrac : Bytes) (kfrag : Option Bytes) (alice_pubkey_sig : UmbralPublicKey)
    (alice_signature : Option Bytes) (session : Option Store) :
    PolicyContract × KeyStore × Option Store :=
  let s := session.getD ks._session_on_init_thread
  let r := NkmsKeystore.add_policy_contract s expiration deposit hrac kfrag
    alice_pubkey_sig alice_signature
  match session with
  | some _ => (r.1, ks, some r.2)
  | none => (r.1, ⟨r.2⟩, none)

/-- Facade method `KeyStore.get_policy_contract` (read-only). -/
def KeyStore.get_policy_contract (ks : KeyStore) (hrac : Bytes) (session : Option Store) :
    Except KSError PolicyContract :=
  let s := session.getD ks._session_on_init_thread
  NkmsKeystore.get_policy_contract s hrac

/-- Facade method `KeyStore.del_policy_contract`. -/
def KeyStore.del_policy_contract (ks : KeyStore) (hrac : Bytes) (session : Option Store) :
    KeyStore × Option Store :=
  let s := session.getD ks._session_on_init_thread
  let s2 := NkmsKeystore.del_policy_contract s hrac
  match session with
  | some _ => (ks, some s2)
  | none => (⟨s2⟩, none)

/-- Facade method `KeyStore.attach_kfrag_to_saved_contract`. -/
def KeyStore.attach_kfrag_to_saved_contract (ks : KeyStore) (alice : Character)
    (hrac_as_hex : String) (kfrag : Bytes) (session : Option Store) :
    Option KSError × KeyStore × Option Store :=
  let s := session.getD ks._session_on_init_thread
  let r := NkmsKeystore.attach_kfrag_to_saved_contract s alice hrac_as_hex kfrag
  match session with
  | some _ => (r.1, ks, some r.2)
  | none => (r.1, ⟨r.2⟩, none)

/-- Facade method `KeyStore.add_workorder`: `session = session or
self._session_on_init_thread`, but the nested call on the next line is
`self.add_key(bob_pubkey_sig)` with NO session argument forwarded — inside
`add_key` the fallback picks `self._session_on_init_thread` again, so the Key
row is added to and committed on the default session regardless of the
caller's explicit session; only the Workorder row then goes to the chosen
session.  With `session=None` both writes land on the same (default) session,
which is the single-session path the core `add_workorder` above models. -/
def KeyStore.add_workorder (ks : KeyStore) (bob_pubkey_sig : UmbralPublicKey)
    (bob_signature : Bytes) (hrac : Bytes) (session : Option Store) :
    Workorder × KeyStore × Option Store :=
  let r := NkmsKeystore.add_key ks._session_on_init_thread bob_pubkey_sig true
  let new_workorder : Workorder := ⟨r.1.id, bob_signature, hrac⟩
  match session with
  | some s =>
      (new_workorder, ⟨r.2⟩, some { s with workorders := s.workorders ++ [new_workorder] })
  | none =>
      (new_workorder, ⟨{ r.2 with workorders := r.2.workorders ++ [new_workorder] }⟩, none)

/-- Facade method `KeyStore.get_workorders` (read-only). -/
def KeyStore.get_workorders (ks : KeyStore) (hrac : Bytes) (session : Option Store) :
    Except KSError (List Workorder) :=
  let s := session.getD ks._session_on_init_thread
  NkmsKeystore.get_workorders s hrac

/-- Facade method `KeyStore.del_workorders`. -/
def KeyStore.del_workorders (ks : KeyStore) (hrac : Bytes) (session : Option Store) :
    Nat × KeyStore × Option Store :=
  let s := session.getD ks._session_on_init_thread
  let r := NkmsKeystore.del_workorders s hrac
  match session with
  | some _ => (r.1, ks, some r.2)
  | none => (r.1, ⟨r.2⟩, none)

/-! ## Helper lemmas (shared between claims) -/

/-- The modelled digest is injective: each byte contributes a fixed-size block
of two nibbles, so the flattened output determines the input. -/
theorem fp_inj (k1 k2 : Bytes) (h : fingerprint_from_key k1 = fingerprint_from_key k2) :
    k1 = k2 := by
  induction k1 generalizing k2 with
  | nil =>
    cases k2 with
    | nil => rfl
    | cons b bs => simp [fingerprint_from_key] at h
  | cons a as ih =>
    cases k2 with
    | nil => simp [fingerprint_from_key] at h
    | cons b bs =>
      simp [fingerprint_from_key] at h
      obtain ⟨h1, h2, h3⟩ := h
      have hab : a = b := by
        have := Nat.div_add_mod a 16
        omega
      have htl : as = bs := ih bs (by simpa [fingerprint_from_key] using h3)
      simp [hab, htl]

/-- A filter whose predicate fails on every element of the list is empty. -/
theorem filter_none_of_all_ne {α : Type} (p : α → Bool) (l : List α)
    (h : ∀ x ∈ l, p x = false) : l.filter p = [] :=
  List.filter_eq_nil_iff.mpr (by intro a ha; simp [h a ha])

end NkmsKeystore

namespace NkmsKeystore

/-! ## Claim theorems -/

/-- C8: the fingerprinting function is deterministic (it is a pure function,
so the right-to-left direction holds definitionally) and injective:
`fingerprint_from_key k1 = fingerprint_from_key k2 ↔ k1 = k2`. -/
theorem c8_fingerprint_deterministic_and_injective (k1 k2 : Bytes) :
    fingerprint_from_key k1 = fingerprint_from_key k2 ↔ k1 = k2 := by
  constructor
  · exact fp_inj k1 k2
  · intro h
    rw [h]

/-- C7: for every signature/fragment pair of the defined fixed lengths,
splitting the composed blob recovers exactly the original pair, and the
splitter rejects any blob whose total length differs from the fixed
signature-plus-fragment length with a malformed-encoding error. -/
theorem c7_split_compose_round_trip (sig frag b : Bytes)
    (hsig : sig.length = SIGNATURE_LENGTH) (hfrag : frag.length = KFRAG_LENGTH)
    (hb : b.length ≠ SIGNATURE_LENGTH + KFRAG_LENGTH) :
    kfrag_splitter (kfrag_compose sig frag) = Except.ok (sig, frag)
    ∧ kfrag_splitter b = Except.error KSError.malformedEncoding := by
  constructor
  · unfold kfrag_splitter kfrag_compose
    rw [if_pos (by simp [hsig, hfrag])]
    rw [← hsig, List.take_left, List.drop_left]
  · unfold kfrag_splitter
    rw [if_neg hb]

/-- C7 witness: the round trip and the length rejection at concrete inputs
of the fixed lengths. -/
theorem c7_split_compose_round_trip_witness :
    kfrag_splitter (kfrag_compose (List.replicate 64 3) (List.replicate 66 7))
      = Except.ok (List.replicate 64 3, List.replicate 66 7)
    ∧ kfrag_splitter [1, 2, 3] = Except.error KSError.malformedEncoding :=
  c7_split_compose_round_trip (List.replicate 64 3) (List.replicate 66 7) [1, 2, 3]
    (by decide) (by decide) (by decide)

/-- C4: `add_key` enforces no idempotency — adding the same key twice leaves
two rows carrying the same fingerprint (the count of rows with that
fingerprint grows by exactly two, and the two returned rows are distinct,
having different primary keys), and `add_workorder` always inserts one fresh
Key row, never reusing an existing row with that fingerprint. -/
theorem c4_add_key_no_idempotency (s : Store) (k : UmbralPublicKey) (b : Bool)
    (bob : UmbralPublicKey) (bsig : Bytes) (h : Bytes) :
    ((add_key (add_key s k b).2 k b).2.keys.filter
        (fun r => r.fingerprint == fingerprint_from_key k.toBytes)).length
      = (s.keys.filter (fun r => r.fingerprint == fingerprint_from_key k.toBytes)).length + 2
    ∧ (add_key s k b).1.id ≠ (add_key (add_key s k b).2 k b).1.id
    ∧ (add_key s k b).1.fingerprint = (add_key (add_key s k b).2 k b).1.fingerprint
    ∧ (add_workorder s bob bsig h).2.keys.length = s.keys.length + 1 := by
  refine ⟨?_, ?_, ?_, ?_⟩
  · simp [add_key, List.filter_append]
  · simp [add_key]
  · simp [add_key]
  · simp [add_workorder, add_key]

/-- C2 counterexample: with no stored PolicyContract at all, the contract
load inside `attach_kfrag_to_saved_contract` does NOT raise `NotFound` — the
`.first()` result is `None` and the next line's attribute access on it raises
`AttributeError` instead, so the claim's third lookup case is false. -/
theorem c2_attach_missing_hrac_counterexample :
    (attach_kfrag_to_saved_contract emptyStore ⟨[]⟩ "deadbeef" []).1
      = some KSError.attributeError
    ∧ (attach_kfrag_to_saved_contract emptyStore ⟨[]⟩ "deadbeef" []).1
      ≠ some KSError.notFound := by
  decide

/-- C2 amended: `get_key` on a fingerprint with no stored Key row (never
written, or after `del_key` of that fingerprint) raises `NotFound`, and so
does `get_policy_contract` on an hrac with no stored PolicyContract row; but
the contract load inside `attach_kfrag_to_saved_contract` on a missing hrac
raises `AttributeError` (attribute access on `None`), not `NotFound`. -/
theorem c2_zero_row_lookups (s : Store) (f h : Bytes) (alice : Character)
    (hs : String) (kf : Bytes)
    (hkey : ∀ k ∈ s.keys, k.fingerprint ≠ f)
    (hpc : ∀ c ∈ s.contracts, c.hrac ≠ h)
    (hpc2 : ∀ c ∈ s.contracts, c.hrac ≠ strEncode hs) :
    get_key s f = Except.error KSError.notFound
    ∧ get_key (del_key s f) f = Except.error KSError.notFound
    ∧ get_policy_contract s h = Except.error KSError.notFound
    ∧ attach_kfrag_to_saved_contract s alice hs kf = (some KSError.attributeError, s) := by
  refine ⟨?_, ?_, ?_, ?_⟩
  · have he : s.keys.filter (fun k => k.fingerprint == f) = [] :=
      filter_none_of_all_ne _ _ (by intro x hx; simpa using hkey x hx)
    simp [get_key, he]
  · have he : (del_key s f).keys.filter (fun k => k.fingerprint == f) = [] := by
      refine filter_none_of_all_ne _ _ ?_
      intro x hx
      simp [del_key, List.mem_filter] at hx
      simp [hx.2]
    simp [get_key, he]
  · have he : s.contracts.filter (fun c => c.hrac == h) = [] :=
      filter_none_of_all_ne _ _ (by intro x hx; simpa using hpc x hx)
    simp [get_policy_contract, he]
  · have he : s.contracts.filter (fun c => c.hrac == strEncode hs) = [] :=
      filter_none_of_all_ne _ _ (by intro x hx; simpa using hpc2 x hx)
    simp [attach_kfrag_to_saved_contract, he]

/-- C2 witness: the amended statement applied at a concrete empty store. -/
theorem c2_zero_row_lookups_witness :
    get_key emptyStore [1] = Except.error KSError.notFound
    ∧ get_key (del_key emptyStore [1]) [1] = Except.error KSError.notFound
    ∧ get_policy_contract emptyStore [2] = Except.error KSError.notFound
    ∧ attach_kfrag_to_saved_contract emptyStore ⟨[]⟩ "x" [] = (some KSError.attributeError, emptyStore) :=
  c2_zero_row_lookups emptyStore [1] [2] ⟨[]⟩ "x" []
    (by intro k hk; simp [emptyStore] at hk)
    (by intro c hc; simp [emptyStore] at hc)
    (by intro c hc; simp [emptyStore] at hc)

/-- A store that has seen exactly three `add_workorder` calls for the hrac
`b"H"` (byte 72), starting from an empty store. -/
def threeWorkorderStore : Store :=
  (add_workorder
    (add_workorder
      (add_workorder emptyStore ⟨[1]⟩ [10] [72]).2
      ⟨[2]⟩ [11] [72]).2
    ⟨[3]⟩ [12] [72]).2

/-- C3: after three `add_workorder` calls with hrac `b"H"`,
`get_workorders` yields exactly three records and `del_workorders` returns
the count 3 — but the subsequent `get_workorders` on the emptied store does
NOT raise `NotFound`: it returns the empty result set, because
`if not workorders` tests the Query object itself, which is always truthy, so
the `NotFound` branch is unreachable for every store and hrac. -/
theorem c3_workorder_lifecycle :
    (get_workorders threeWorkorderStore [72]
      = Except.ok [⟨0, [10], [72]⟩, ⟨1, [11], [72]⟩, ⟨2, [12], [72]⟩])
    ∧ (del_workorders threeWorkorderStore [72]).1 = 3
    ∧ get_workorders (del_workorders threeWorkorderStore [72]).2 [72] = Except.ok []
    ∧ get_workorders (del_workorders threeWorkorderStore [72]).2 [72]
      ≠ Except.error KSError.notFound
    ∧ ∀ (s : Store) (h : Bytes), get_workorders s h ≠ Except.error KSError.notFound := by
  refine ⟨by rfl, by rfl, by rfl, by exact fun hc => Except.noConfusion hc, ?_⟩
  intro s h
  simp [get_workorders, queryIsTruthy]

/-- C5: `add_policy_contract` records `alice_signature` as absent regardless
of the caller-supplied value, and when no contract with hrac `H` is already
stored, a subsequent `get_policy_contract H` returns the newly persisted
contract, whose `kfrag` is absent (the call passed `kfrag=None`) and whose
`expiration` and `deposit` equal the arguments supplied at creation. -/
theorem c5_policy_contract_persists (s : Store) (exp dep : Nat) (H : Bytes)
    (apk : UmbralPublicKey) (asig : Option Bytes)
    (hfresh : ∀ c ∈ s.contracts, c.hrac ≠ H) :
    (add_policy_contract s exp dep H none apk asig).1.alice_signature = none
    ∧ (add_policy_contract s exp dep H none apk asig).1.k_frag = none
    ∧ (add_policy_contract s exp dep H none apk asig).1.expiration = exp
    ∧ (add_policy_contract s exp dep H none apk asig).1.deposit = dep
    ∧ get_policy_contract (add_policy_contract s exp dep H none apk asig).2 H
      = Except.ok (add_policy_contract s exp dep H none apk asig).1 := by
  have hnil : s.contracts.filter (fun c => c.hrac == H) = [] :=
    filter_none_of_all_ne _ _ (by intro x hx; simpa using hfresh x hx)
  cases hk : (s.keys.filter (fun k => k.key_data == apk.toBytes)).head? with
  | some alice_key_instance =>
    refine ⟨?_, ?_, ?_, ?_, ?_⟩ <;>
      simp [add_policy_contract, hk, get_policy_contract, List.filter_append, hnil]
  | none =>
    refine ⟨?_, ?_, ?_, ?_, ?_⟩ <;>
      simp [add_policy_contract, hk, get_policy_contract, List.filter_append, hnil]

/-- C5 witness: the statement applied at a concrete empty store. -/
theorem c5_policy_contract_persists_witness :
    (add_policy_contract emptyStore 1000 50 [5, 6] none ⟨[9]⟩ (some [3])).1.alice_signature = none
    ∧ (add_policy_contract emptyStore 1000 50 [5, 6] none ⟨[9]⟩ (some [3])).1.k_frag = none
    ∧ (add_policy_contract emptyStore 1000 50 [5, 6] none ⟨[9]⟩ (some [3])).1.expiration = 1000
    ∧ (add_policy_contract emptyStore 1000 50 [5, 6] none ⟨[9]⟩ (some [3])).1.deposit = 50
    ∧ get_policy_contract (add_policy_contract emptyStore 1000 50 [5, 6] none ⟨[9]⟩ (some [3])).2 [5, 6]
      = Except.ok (add_policy_contract emptyStore 1000 50 [5, 6] none ⟨[9]⟩ (some [3])).1 :=
  c5_policy_contract_persists emptyStore 1000 50 [5, 6] ⟨[9]⟩ (some [3])
    (by intro c hc; simp [emptyStore] at hc)

/-- In a table whose every row carries the fingerprint of its own key bytes,
the first row matching the fingerprint of `kb` — after a row for `kb` itself
was appended, so a match exists — stores exactly the bytes `kb`. -/
theorem head_filter_fingerprint (l : List Key) (kb : Bytes) (nk : Key)
    (hinv : ∀ r ∈ l, r.fingerprint = fingerprint_from_key r.key_data)
    (hnk : nk.fingerprint = fingerprint_from_key kb) (hnkd : nk.key_data = kb) :
    ∃ m, ((l ++ [nk]).filter (fun x => x.fingerprint == fingerprint_from_key kb)).head?
        = some m ∧ m.key_data = kb := by
  induction l with
  | nil =>
    refine ⟨nk, ?_, hnkd⟩
    simp [List.filter, hnk]
  | cons r rs ih =>
    by_cases hc : r.fingerprint = fingerprint_from_key kb
    · refine ⟨r, ?_, ?_⟩
      · simp [List.filter_cons, hc]
      · have hrfp : fingerprint_from_key r.key_data = fingerprint_from_key kb := by
          rw [← hinv r (by simp)]
          exact hc
        exact fp_inj _ _ hrfp
    · have hskip : (r.fingerprint == fingerprint_from_key kb) = false := by
        simp [hc]
      obtain ⟨m, hm, hmd⟩ := ih (fun x hx => hinv x (by simp [hx]))
      refine ⟨m, ?_, hmd⟩
      simpa [List.filter_cons, hskip] using hm

/-- C6: after `add_key k`, `get_key` on `fingerprint_from_key` of `k`'s bytes
returns the deserialized public-key value object whose serialized bytes equal
the bytes of `k`, provided every already-stored row carries the fingerprint
of its own key bytes (which every row written through this layer does). -/
theorem c6_add_get_key_round_trip (s : Store) (k : UmbralPublicKey) (b : Bool)
    (hinv : ∀ r ∈ s.keys, r.fingerprint = fingerprint_from_key r.key_data) :
    get_key (add_key s k b).2 (fingerprint_from_key k.toBytes)
      = Except.ok (UmbralPublicKey.from_bytes k.toBytes)
    ∧ (UmbralPublicKey.from_bytes k.toBytes).toBytes = k.toBytes := by
  refine ⟨?_, rfl⟩
  obtain ⟨m, hm, hmd⟩ :=
    head_filter_fingerprint s.keys k.toBytes
      ⟨s.next_id, fingerprint_from_key k.toBytes, k.toBytes, b⟩ hinv rfl rfl
  simp only [get_key, add_key]
  rw [hm]
  simp [hmd]

/-- C6 witness: the round trip at a concrete empty store. -/
theorem c6_add_get_key_round_trip_witness :
    get_key (add_key emptyStore ⟨[4, 200]⟩ true).2 (fingerprint_from_key [4, 200])
      = Except.ok (UmbralPublicKey.from_bytes [4, 200])
    ∧ (UmbralPublicKey.from_bytes [4, 200]).toBytes = [4, 200] :=
  c6_add_get_key_round_trip emptyStore ⟨[4, 200]⟩ true
    (by intro r hr; simp [emptyStore] at hr)

/-- Updating the first element a filter would select keeps it the first
selected element, now carrying its image under `f`, provided `f` preserves
the predicate. -/
theorem updateFirst_filter_head (p : α → Bool) (f : α → α)
    (hpf : ∀ x, p (f x) = p x) (l : List α) (pc : α)
    (h : (l.filter p).head? = some pc) :
    ((updateFirst p f l).filter p).head? = some (f pc) := by
  induction l with
  | nil => simp at h
  | cons x xs ih =>
    by_cases hx : p x = true
    · rw [List.filter_cons_of_pos hx] at h
      simp at h
      subst h
      rw [updateFirst, if_pos hx, List.filter_cons_of_pos (by rw [hpf]; exact hx)]
      simp
    · have hxf : p x = false := by simpa using hx
      rw [List.filter_cons_of_neg (by simp [hxf])] at h
      rw [updateFirst, if_neg (by simp [hxf]),
        List.filter_cons_of_neg (by simp [hxf])]
      exact ih h

/-- Every element of `updateFirst p f l` either already was in `l` or is the
image under `f` of an element of `l` satisfying `p`. -/
theorem mem_updateFirst (p : α → Bool) (f : α → α) (l : List α) (x : α)
    (hx : x ∈ updateFirst p f l) :
    x ∈ l ∨ ∃ y, y ∈ l ∧ p y = true ∧ x = f y := by
  induction l with
  | nil => simp [updateFirst] at hx
  | cons z zs ih =>
    rw [updateFirst] at hx
    by_cases hz : p z = true
    · rw [if_pos hz] at hx
      rcases List.mem_cons.mp hx with hfz | hmem
      · exact Or.inr ⟨z, by simp, hz, hfz⟩
      · exact Or.inl (by simp [hmem])
    · rw [if_neg hz] at hx
      rcases List.mem_cons.mp hx with hfz | hmem
      · exact Or.inl (by simp [hfz])
      · rcases ih hmem with hin | ⟨y, hy, hpy, hxy⟩
        · exact Or.inl (by simp [hin])
        · exact Or.inr ⟨y, by simp [hy], hpy, hxy⟩

/-- C1: with a stored contract loaded for the (encoded) hrac, a principal
whose stamp differs from the contract's stored delegator key bytes makes
`attach_kfrag_to_saved_contract` raise `SuspiciousActivity` (not `NotFound`)
with the store — hence the contract's kfrag — unchanged; a principal whose
stamp equals the stored key bytes makes it succeed and commit the contract
with its `kfrag` set to exactly the supplied fragment bytes. -/
theorem c1_attach_integrity_gate (s : Store) (alice : Character) (h : String)
    (kf : Bytes) (pc : PolicyContract)
    (hload : (s.contracts.filter (fun c => c.hrac == strEncode h)).head? = some pc) :
    (pc.alice_pubkey_sig.key_data ≠ alice.stamp →
      attach_kfrag_to_saved_contract s alice h kf = (some KSError.suspiciousActivity, s))
    ∧ (pc.alice_pubkey_sig.key_data = alice.stamp →
      (attach_kfrag_to_saved_contract s alice h kf).1 = none
      ∧ (((attach_kfrag_to_saved_contract s alice h kf).2.contracts.filter
            (fun c => c.hrac == strEncode h)).head?
          = some { pc with k_frag := some kf })) := by
  constructor
  · intro hne
    simp [attach_kfrag_to_saved_contract, hload, hne]
  · intro heq
    constructor
    · simp [attach_kfrag_to_saved_contract, hload, heq]
    · have hupd := updateFirst_filter_head (fun c => c.hrac == strEncode h)
        (fun c => { c with k_frag := some kf }) (fun x => rfl) s.contracts pc hload
      simpa [attach_kfrag_to_saved_contract, hload, heq] using hupd

/-- A store holding one policy contract whose hrac is the encoding of `"h"`
(byte 104) and whose delegator key bytes are `[7]`. -/
def oneContractStore : Store :=
  ⟨[⟨0, fingerprint_from_key [7], [7], true⟩],
   [⟨1000, 50, [104], none, ⟨0, fingerprint_from_key [7], [7], true⟩, none⟩],
   [], 1⟩

/-- C1 witness: both branches of the integrity gate at the concrete
one-contract store — a stamp `[9]` differing from the stored key bytes `[7]`
raises `SuspiciousActivity` and leaves the store unchanged; the matching
stamp `[7]` succeeds and the reloaded contract carries the attached bytes. -/
theorem c1_attach_integrity_gate_witness :
    attach_kfrag_to_saved_contract oneContractStore ⟨[9]⟩ "h" [1, 2]
      = (some KSError.suspiciousActivity, oneContractStore)
    ∧ ((attach_kfrag_to_saved_contract oneContractStore ⟨[7]⟩ "h" [1, 2]).1 = none
      ∧ (((attach_kfrag_to_saved_contract oneContractStore ⟨[7]⟩ "h" [1, 2]).2.contracts.filter
            (fun c => c.hrac == strEncode "h")).head?
          = some ⟨1000, 50, [104], some [1, 2], ⟨0, fingerprint_from_key [7], [7], true⟩, none⟩)) :=
  ⟨(c1_attach_integrity_gate oneContractStore ⟨[9]⟩ "h" [1, 2]
      ⟨1000, 50, [104], none, ⟨0, fingerprint_from_key [7], [7], true⟩, none⟩ (by decide)).1
      (by decide),
   (c1_attach_integrity_gate oneContractStore ⟨[7]⟩ "h" [1, 2]
      ⟨1000, 50, [104], none, ⟨0, fingerprint_from_key [7], [7], true⟩, none⟩ (by decide)).2
      (by decide)⟩

/-- C10: `attach_kfrag_to_saved_contract` is the one hrac-keyed operation
keyed by a text string — it encodes the string to bytes before the lookup
(the others take the hrac as raw bytes, visible in their types).  When no
stored contract's hrac bytes equal the encoding of the supplied string, the
attachment targets nothing (the call fails, with the store unchanged); and
whatever the call does, every contract in the resulting store either was
already stored or has hrac bytes equal to the encoding of the supplied
string — attachment can only target such a contract. -/
theorem c10_attach_hrac_string_encoding (s : Store) (alice : Character)
    (h : String) (kf : Bytes) :
    ((∀ c ∈ s.contracts, c.hrac ≠ strEncode h) →
      attach_kfrag_to_saved_contract s alice h kf = (some KSError.attributeError, s))
    ∧ (∀ c ∈ (attach_kfrag_to_saved_contract s alice h kf).2.contracts,
        c ∈ s.contracts ∨ c.hrac = strEncode h) := by
  constructor
  · intro hnone
    have he : s.contracts.filter (fun c => c.hrac == strEncode h) = [] :=
      filter_none_of_all_ne _ _ (by intro x hx; simpa using hnone x hx)
    simp [attach_kfrag_to_saved_contract, he]
  · intro c hc
    unfold attach_kfrag_to_saved_contract at hc
    cases hload : (s.contracts.filter (fun x => x.hrac == strEncode h)).head? with
    | none =>
      rw [hload] at hc
      exact Or.inl hc
    | some pc =>
      rw [hload] at hc
      dsimp only at hc
      by_cases hstamp : (pc.alice_pubkey_sig.key_data != alice.stamp) = true
      · rw [if_pos hstamp] at hc
        exact Or.inl hc
      · rw [if_neg hstamp] at hc
        dsimp only at hc
        rcases mem_updateFirst _ _ _ _ hc with hin | ⟨y, _, hpy, hxy⟩
        · exact Or.inl hin
        · right
          rw [hxy]
          simpa using hpy

/-- C10 witness: the first part applied at the concrete empty store, where no
contract's hrac can equal the encoding: the attachment targets nothing. -/
theorem c10_attach_hrac_string_encoding_witness :
    attach_kfrag_to_saved_contract emptyStore ⟨[3]⟩ "h" [1]
      = (some KSError.attributeError, emptyStore) :=
  (c10_attach_hrac_string_encoding emptyStore ⟨[3]⟩ "h" [1]).1
    (by intro c hc; simp [emptyStore] at hc)

/-- C9 counterexample: `add_workorder` with an explicit session does NOT
leave the default session alone — starting from a keystore whose default
session is empty and supplying an explicit (empty) session, the call comes
back with a default session that gained the Key row (so it was read and
modified), while the supplied session received only the Workorder row and no
Key row at all. -/
theorem c9_add_workorder_touches_default_counterexample :
    (KeyStore.add_workorder ⟨emptyStore⟩ ⟨[1]⟩ [10] [72] (some emptyStore)).2.1
      ≠ (⟨emptyStore⟩ : KeyStore)
    ∧ (KeyStore.add_workorder ⟨emptyStore⟩ ⟨[1]⟩ [10] [72] (some emptyStore)).2.1
      = ⟨⟨[⟨0, fingerprint_from_key [1], [1], true⟩], [], [], 1⟩⟩
    ∧ (KeyStore.add_workorder ⟨emptyStore⟩ ⟨[1]⟩ [10] [72] (some emptyStore)).2.2
      = some ⟨[], [], [⟨0, [10], [72]⟩], 0⟩ := by
  decide

/-- C9 amended: every facade method except `add_workorder`, when called with
an explicit session, performs all its work on the supplied session only — the
result and the updated session are exactly what the operation body computes
from the supplied session, and the instance's default session bound at
construction is neither read (the returned triple is a function of the
supplied session alone) nor modified (the keystore comes back untouched).
`add_workorder` breaks the frame: its nested `self.add_key` call forwards no
session, so even with an explicit session the Key row is added to and
committed on the default session — which is thereby both read (the new
Workorder's key reference comes from it) and modified — and only the
Workorder row reaches the supplied session. -/
theorem c9_explicit_session_frame (ks : KeyStore) (s : Store)
    (key apk bob : UmbralPublicKey) (b : Bool) (fp h bsig kf : Bytes)
    (exp dep : Nat) (kfo asig : Option Bytes) (alice : Character) (hs : String) :
    ks.add_key key b (some s) = ((add_key s key b).1, ks, some (add_key s key b).2)
    ∧ ks.get_key fp (some s) = get_key s fp
    ∧ ks.del_key fp (some s) = (ks, some (del_key s fp))
    ∧ ks.add_policy_contract exp dep h kfo apk asig (some s)
      = ((add_policy_contract s exp dep h kfo apk asig).1, ks,
          some (add_policy_contract s exp dep h kfo apk asig).2)
    ∧ ks.get_policy_contract h (some s) = get_policy_contract s h
    ∧ ks.del_policy_contract h (some s) = (ks, some (del_policy_contract s h))
    ∧ ks.attach_kfrag_to_saved_contract alice hs kf (some s)
      = ((attach_kfrag_to_saved_contract s alice hs kf).1, ks,
          some (attach_kfrag_to_saved_contract s alice hs kf).2)
    ∧ ks.get_workorders h (some s) = get_workorders s h
    ∧ ks.del_workorders h (some s)
      = ((del_workorders s h).1, ks, some (del_workorders s h).2)
    ∧ ks.add_workorder bob bsig h (some s)
      = (⟨(add_key ks._session_on_init_thread bob true).1.id, bsig, h⟩,
         ⟨(add_key ks._session_on_init_thread bob true).2⟩,
         some { s with workorders := s.workorders
            ++ [⟨(add_key ks._session_on_init_thread bob true).1.id, bsig, h⟩] }) :=
  ⟨rfl, rfl, rfl, rfl, rfl, rfl, rfl, rfl, rfl, rfl⟩

end NkmsKeystore
